import Mathlib

/-!
Shallow embedding of the curve-creator drawing engine
(`src/classes/DrawingHelper.js`), together with proofs about the claims
made by the specification.

Modelling conventions:
* JavaScript numbers are modelled as exact rationals (`ℚ`).  The one place
  where the source computes with transcendental functions (`Math.atan2`,
  `Math.cos`, `Math.sin`, `Math.sqrt` in the ADD_POINTS control synthesis)
  is modelled twice: over `ℝ` exactly as written in the source
  (`synthControl` below), and in the executable `ℚ` state model by the
  closed form `p1 + t·(p2 - p1)` for `t = 0.2, 0.8`; the theorem for claim
  C9 proves that over the reals the source formula *is* that closed form.
* The module-level globals `activeTool` and `mousePos` are fields of
  `EditorState`, as are the `DrawingHelper` instance fields.
* `this.activeCurveGroup` is an object reference in the source; it is
  modelled by the group's id (`activeId`).  A dangling reference (the
  active object no longer being an element of `curveGroups`, which the
  source can produce via `loadState`) is represented by an id that no
  group in `curveGroups` carries.
* The canvas context (`ctx`) is write-only from the engine's point of
  view; the per-frame `update` pass draws but assigns no committed editor
  state, so a frame tick is the identity on `EditorState` and the preview
  coordinates it renders are modelled by the pure functions
  `updatePointPos`, `getEditControlPoints` and `updateOriginPos`.
* `localStorage` and the timestamp are external; `saveState` is modelled
  as the pure construction of the `Snapshot` value that the source
  serializes, `loadState` consumes such a value.  Absent JSON keys
  (`undefined`) are `none`.
-/

namespace CurveCreator

/-! ## Constants (`ToolTypes` and the module constants) -/

def TRANSFORM_REFERENCE : Nat := 0
def ADD_POINTS : Nat := 1
def DELETE_POINTS : Nat := 2
def EDIT_POINTS : Nat := 3
def EDIT_CONTROLS : Nat := 4
def EDIT_ORIGIN_POINT : Nat := 54

def canvasWidth : ℚ := 1024
def canvasHeight : ℚ := 768
def markerSize : ℚ := 32
def originSize : ℚ := 64
def originSizeHalf : ℚ := originSize * 0.5

/-! ## Geometric primitives -/

/-- `class Point { x; y }`. -/
structure Pt where
  x : ℚ
  y : ℚ
deriving DecidableEq, Repr

instance : Inhabited Pt := ⟨⟨0, 0⟩⟩

/-- `class Control { points = [new Point(x1,y1), new Point(x2,y2)] }`:
the two endpoints of one Bezier control handle. -/
structure Control where
  p1 : Pt
  p2 : Pt
deriving DecidableEq, Repr

instance : Inhabited Control := ⟨⟨default, default⟩⟩

/-- `class CurveGroup { points = []; controls = []; id }`. -/
structure CurveGroup where
  id : String
  points : List Pt := []
  controls : List Control := []
deriving DecidableEq, Repr

/-! ## ReferenceImage -/

/-- `class ReferenceImage`.  `imgWidth`/`imgHeight` stand for
`this.image.width/height` of the decoded image; `ready` flips on the
host's asynchronous `image.onload` callback, which is external to the
engine and not modelled as a state transition here. -/
structure ReferenceImage where
  ready : Bool := false
  data : String := ""
  imgWidth : ℚ := 0
  imgHeight : ℚ := 0
  offset : Pt := ⟨0, 0⟩
  scale : ℚ := 1
  dragPosition : Pt := ⟨0, 0⟩
  moving : Bool := false
  scaling : Bool := false
  opacity : ℚ := 1
  color : String := "#ff0099"
deriving DecidableEq, Repr

/-- `new Blob([data]).size`: the UTF-8 byte size of the string. -/
def blobSize (s : String) : Nat := s.utf8ByteSize

/-- `ReferenceImage.getSaveData`: the source computes
`size = new Blob([this.data]).size / 1_000_000` and returns the data
when `size < 4_000_000`, else the empty string. -/
def ReferenceImage.getSaveData (r : ReferenceImage) : String :=
  let size : ℚ := (blobSize r.data : ℚ) / 1000000
  if size < 4000000 then r.data else ""

/-- `ReferenceImage.setData`: stores the payload (and assigns
`image.src`, which starts an asynchronous decode; the `ready` flip
happens on the external `onload` callback). -/
def ReferenceImage.setData (r : ReferenceImage) (data : String) : ReferenceImage :=
  { r with data := data }

/-- `ReferenceImage.onMouseDown` (drag-detection while the transform
tool is active). -/
def refMouseDown (r : ReferenceImage) (activeTool : Nat) (mousePos : Pt) :
    ReferenceImage :=
  if ¬ r.ready ∨ activeTool ≠ TRANSFORM_REFERENCE then r
  else
    let x := r.offset.x
    let y := r.offset.y
    let scaledWidth := r.imgWidth * r.scale
    let scaledHeight := r.imgHeight * r.scale
    if mousePos.x > x ∧ mousePos.x < x + scaledWidth ∧
        mousePos.y > y ∧ mousePos.y < y + scaledHeight then
      if (mousePos.x < x + markerSize ∧ mousePos.y < y + markerSize) ∨
          (mousePos.x > x + scaledWidth - markerSize ∧
            mousePos.y > y + scaledHeight - markerSize) then
        { r with scaling := true, dragPosition := mousePos }
      else
        { r with moving := true, dragPosition := mousePos }
    else r

/-- `ReferenceImage.onMouseUp`: commits a move/scale drag. -/
def refMouseUp (r : ReferenceImage) (mousePos : Pt) : ReferenceImage :=
  if ¬ r.ready then r
  else if r.moving ∨ r.scaling then
    let deltaX := mousePos.x - r.dragPosition.x
    let deltaY := mousePos.y - r.dragPosition.y
    let r' :=
      if r.moving then
        { r with offset := ⟨r.offset.x + deltaX, r.offset.y + deltaY⟩ }
      else if r.scaling then
        { r with scale := max (r.scale - deltaY * 0.01) 0.1 }
      else r
    { r' with moving := false, scaling := false }
  else r

/-! ## Editor state (`DrawingHelper` fields plus the two globals) -/

structure EditorState where
  curveGroups : List CurveGroup := []
  activeId : Option String := none
  originPos : Pt := ⟨0, 0⟩
  lineWidth : ℚ := 2
  pointSize : ℚ := 16
  pointSizeHalf : ℚ := 8
  activeOpacity : ℚ := 1
  inactiveOpacity : ℚ := 1
  mainColor : String := "#ff0099"
  controlColor : String := "#ffffff"
  originColor : String := "#ffffff"
  pointRange : ℚ := 16
  pointRangeHalf : ℚ := 8
  outputPrecision : Nat := 2
  dragStart : Option Pt := none
  dragPoint : Option Nat := none
  dragControl : Option (Nat × Nat) := none
  dragOrigin : Bool := false
  reference : ReferenceImage := {}
  activeTool : Nat := TRANSFORM_REFERENCE
  mousePos : Pt := ⟨0, 0⟩
deriving DecidableEq, Repr

/-- The group the active reference designates, when it is an element of
the collection (`curveGroups.find`-style lookup by id). -/
def activeGroup? (s : EditorState) : Option CurveGroup :=
  s.activeId.bind fun id => s.curveGroups.find? fun g => g.id == id

/-- Rewrites the first group carrying the given id (the source mutates
the object aliased by `activeCurveGroup` in place; with ids unique that
object is the first — and only — match in the collection). -/
def updateGroup (gs : List CurveGroup) (id : String)
    (f : CurveGroup → CurveGroup) : List CurveGroup :=
  match gs with
  | [] => []
  | g :: rest =>
    if g.id == id then f g :: rest else g :: updateGroup rest id f

/-! ## Root commands -/

/-- `setActiveGroupId`: lookup by id; a failed lookup only warns and
leaves the reference untouched. -/
def setActiveGroupId (s : EditorState) (id : String) : EditorState :=
  match s.curveGroups.find? (fun g => g.id == id) with
  | some _ => { s with activeId := some id }
  | none => s

/-- `createGroup`: appends a fresh group and makes it active. -/
def createGroup (s : EditorState) (id : String) : EditorState :=
  { s with curveGroups := s.curveGroups ++ [{ id := id }], activeId := some id }

/-- `deleteGroup`: filters the group out; clears the active reference
iff it designates the deleted id. -/
def deleteGroup (s : EditorState) (id : String) : EditorState :=
  let s' := { s with curveGroups := s.curveGroups.filter fun g => ¬ g.id == id }
  if s.activeId = some id then { s' with activeId := none } else s'

/-- `deleteLastPoint`: pops the last point and the last control of the
active group (`Array.pop` on an empty array is a no-op). -/
def deleteLastPoint (s : EditorState) : EditorState :=
  match activeGroup? s with
  | some g =>
    if 0 < g.points.length then
      { s with
        curveGroups := updateGroup s.curveGroups g.id fun g =>
          { g with points := g.points.dropLast, controls := g.controls.dropLast } }
    else s
  | none => s

/-- `syncLastPoint`: with at least two points, overwrites the last
point's coordinates with the first point's. -/
def syncLastPoint (s : EditorState) : EditorState :=
  match activeGroup? s with
  | some g =>
    if 1 < g.points.length then
      { s with
        curveGroups := updateGroup s.curveGroups g.id fun g =>
          { g with
            points := g.points.set (g.points.length - 1) (g.points.getD 0 default) } }
    else s
  | none => s

/-! ## Pointer-down handling -/

/-- The axis-aligned pick box used by EDIT_POINTS / EDIT_CONTROLS /
EDIT_ORIGIN_POINT: strict comparisons on all four sides. -/
def hitBox (mouse p : Pt) (half : ℚ) : Bool :=
  decide (mouse.x > p.x - half) && decide (mouse.x < p.x + half) &&
    decide (mouse.y > p.y - half) && decide (mouse.y < p.y + half)

/-- The inner `for (j …)` loop of the EDIT_CONTROLS case: the first of
the control's two endpoints inside the pick box (`break` leaves the
inner loop at the first hit). -/
def controlFirstHit (c : Control) (hit : Pt → Bool) : Option Nat :=
  if hit c.p1 then some 0 else if hit c.p2 then some 1 else none

/-- The outer `for (i …)` loop of the EDIT_CONTROLS case.  The `break`
in the source only leaves the inner loop, so the outer scan continues
past a hit and a later control's hit overwrites `dragControl` and
`dragStart`. -/
def scanControls (hit : Pt → Bool) (mouse : Pt) :
    List Control → Nat → Option (Nat × Nat) × Option Pt →
      Option (Nat × Nat) × Option Pt
  | [], _, acc => acc
  | c :: rest, i, acc =>
    match controlFirstHit c hit with
    | some j => scanControls hit mouse rest (i + 1) (some (i, j), some mouse)
    | none => scanControls hit mouse rest (i + 1) acc

/-- The EDIT_POINTS scan: `break` at the first point inside the pick
box. -/
def scanPoints (hit : Pt → Bool) : List Pt → Nat → Option Nat
  | [], _ => none
  | p :: rest, i => if hit p then some i else scanPoints hit rest (i + 1)

/-- The message reported by ADD_POINTS when no group is active. -/
def addPointMessage : String :=
  "Cannot add point; Please create or select a curve group before adding points."

/-- The ADD_POINTS mutation of the active group: push the new point;
every point after the first also pushes a control handle whose endpoints
are 20% and 80% of the way from the previous point to the new one (the
closed form of the source's angle/distance construction — see
`synthControl` and claim C9). -/
def addPointToGroup (mouse : Pt) (g : CurveGroup) : CurveGroup :=
  let points := g.points ++ [mouse]
  if 1 < points.length then
    let point1 := points.getD (points.length - 2) default
    let point2 := points.getD (points.length - 1) default
    let c : Control :=
      ⟨⟨point1.x + (point2.x - point1.x) * 0.2, point1.y + (point2.y - point1.y) * 0.2⟩,
       ⟨point1.x + (point2.x - point1.x) * 0.8, point1.y + (point2.y - point1.y) * 0.8⟩⟩
    { g with points := points, controls := g.controls ++ [c] }
  else { g with points := points }

/-- `handleMouseDown`, dispatching on the active tool.  The second
component is the message passed to `setMessage`, if any.  Early
`return`s in the source skip the trailing `reference.onMouseDown()`
call; the `break`s reach it. -/
def handleMouseDown (s : EditorState) : EditorState × Option String :=
  let mouse := s.mousePos
  if s.activeTool = ADD_POINTS then
    match s.activeId with
    | none => (s, some addPointMessage)
    | some id =>
      if mouse.x < 0 ∨ mouse.x > canvasWidth ∨ mouse.y < 0 ∨ mouse.y > canvasHeight then
        (s, none)
      else
        let s' := { s with curveGroups := updateGroup s.curveGroups id (addPointToGroup mouse) }
        ({ s' with reference := refMouseDown s'.reference s'.activeTool mouse }, none)
  else if s.activeTool = EDIT_POINTS then
    match activeGroup? s with
    | none => (s, none)
    | some g =>
      let s' :=
        match scanPoints (fun p => hitBox mouse p s.pointRangeHalf) g.points 0 with
        | some i => { s with dragPoint := some i, dragStart := some mouse }
        | none => s
      ({ s' with reference := refMouseDown s'.reference s'.activeTool mouse }, none)
  else if s.activeTool = EDIT_CONTROLS then
    match activeGroup? s with
    | none => (s, none)
    | some g =>
      let dc := scanControls (fun p => hitBox mouse p s.pointRangeHalf) mouse
        g.controls 0 (s.dragControl, s.dragStart)
      let s' := { s with dragControl := dc.1, dragStart := dc.2 }
      ({ s' with reference := refMouseDown s'.reference s'.activeTool mouse }, none)
  else if s.activeTool = EDIT_ORIGIN_POINT then
    let s' :=
      if hitBox mouse s.originPos originSizeHalf then
        { s with dragOrigin := true, dragStart := some mouse }
      else s
    ({ s' with reference := refMouseDown s'.reference s'.activeTool mouse }, none)
  else
    ({ s with reference := refMouseDown s.reference s.activeTool mouse }, none)

/-! ## Pointer-up handling -/

/-- `handleMouseUp`: commits the live drag (committed coordinates plus
the delta between the pointer now and the drag anchor) and clears the
drag state. -/
def handleMouseUp (s : EditorState) : EditorState :=
  let mouse := s.mousePos
  if s.activeTool = EDIT_POINTS then
    match s.activeId, s.dragPoint with
    | some id, some i =>
      let start := s.dragStart.getD default
      let deltaX := mouse.x - start.x
      let deltaY := mouse.y - start.y
      let s' :=
        { s with
          curveGroups := updateGroup s.curveGroups id fun g =>
            let point := g.points.getD i default
            { g with points := g.points.set i ⟨point.x + deltaX, point.y + deltaY⟩ },
          dragPoint := none, dragStart := none }
      { s' with reference := refMouseUp s'.reference mouse }
    | _, _ => s
  else if s.activeTool = EDIT_CONTROLS then
    match s.activeId, s.dragControl with
    | some id, some ci =>
      let start := s.dragStart.getD default
      let deltaX := mouse.x - start.x
      let deltaY := mouse.y - start.y
      let s' :=
        { s with
          curveGroups := updateGroup s.curveGroups id fun g =>
            let c := g.controls.getD ci.1 default
            let c' :=
              if ci.2 = 0 then { c with p1 := ⟨c.p1.x + deltaX, c.p1.y + deltaY⟩ }
              else { c with p2 := ⟨c.p2.x + deltaX, c.p2.y + deltaY⟩ }
            { g with controls := g.controls.set ci.1 c' },
          dragControl := none, dragStart := none }
      { s' with reference := refMouseUp s'.reference mouse }
    | _, _ => s
  else if s.activeTool = EDIT_ORIGIN_POINT then
    let s' :=
      if s.dragOrigin then
        let start := s.dragStart.getD default
        { s with
          originPos := ⟨s.originPos.x + (mouse.x - start.x), s.originPos.y + (mouse.y - start.y)⟩,
          dragOrigin := false, dragStart := none }
      else s
    { s' with reference := refMouseUp s'.reference mouse }
  else
    { s with reference := refMouseUp s.reference mouse }

/-! ## Per-frame update pass

The source's `update` draws to the canvas context and assigns no
committed editor state.  The preview coordinates it renders are the pure
functions below; a frame tick itself is the identity on `EditorState`. -/

/-- The preview position of point `j` of a group while `update` draws it
(committed position plus the live pointer delta iff the group is active,
the tool is EDIT_POINTS and that point is the drag target). -/
def updatePointPos (s : EditorState) (active : Bool) (j : Nat) (p : Pt) : Pt :=
  if active ∧ s.activeTool = EDIT_POINTS ∧ s.dragPoint = some j then
    let start := s.dragStart.getD default
    ⟨p.x + (s.mousePos.x - start.x), p.y + (s.mousePos.y - start.y)⟩
  else p

/-- `getEditControlPoints`: the two rendered endpoints of control
`index`, with the live delta added to the dragged endpoint. -/
def getEditControlPoints (s : EditorState) (c : Control) (index : Nat) :
    ℚ × ℚ × ℚ × ℚ :=
  match s.dragControl with
  | some ci =>
    if ci.1 = index then
      let start := s.dragStart.getD default
      let deltaX := s.mousePos.x - start.x
      let deltaY := s.mousePos.y - start.y
      if ci.2 = 0 then (c.p1.x + deltaX, c.p1.y + deltaY, c.p2.x, c.p2.y)
      else (c.p1.x, c.p1.y, c.p2.x + deltaX, c.p2.y + deltaY)
    else (c.p1.x, c.p1.y, c.p2.x, c.p2.y)
  | none => (c.p1.x, c.p1.y, c.p2.x, c.p2.y)

/-- The preview position of the origin crosshair. -/
def updateOriginPos (s : EditorState) : Pt :=
  if s.dragOrigin then
    let start := s.dragStart.getD default
    ⟨s.originPos.x + (s.mousePos.x - start.x),
     s.originPos.y + (s.mousePos.y - start.y)⟩
  else s.originPos

/-- Host events delivered to the engine: pointer moves, pointer
down/up, and frame ticks of the external scheduler. -/
inductive Event where
  | move : Pt → Event
  | down : Event
  | up : Event
  | frame : Event
deriving DecidableEq, Repr

/-- One event step.  `frame` invokes `update`, which renders previews
but assigns no committed editor state. -/
def step (s : EditorState) : Event → EditorState
  | .move p => { s with mousePos := p }
  | .down => (handleMouseDown s).1
  | .up => handleMouseUp s
  | .frame => s

/-! ## Persistence (`saveState` / `loadState`)

`saveState` builds the JSON-serializable snapshot written to the store
(the timestamp and the store write itself are external); `loadState`
applies a snapshot field-by-field, skipping absent (`none`) fields. -/

structure SavedControl where
  x1 : ℚ
  y1 : ℚ
  x2 : ℚ
  y2 : ℚ
deriving DecidableEq, Repr

structure SavedGroup where
  id : String
  points : List Pt
  controls : List SavedControl
deriving DecidableEq, Repr

structure SavedReference where
  scale : ℚ
  offset : Pt
  opacity : ℚ
  color : String
  data : String
deriving DecidableEq, Repr

structure Snapshot where
  originPos : Option Pt := none
  curveGroups : Option (List SavedGroup) := none
  activeGroupId : Option String := none
  reference : Option SavedReference := none
  activeTool : Option Nat := none
  lineWidth : Option ℚ := none
  pointRange : Option ℚ := none
  pointSize : Option ℚ := none
  activeOpacity : Option ℚ := none
  inactiveOpacity : Option ℚ := none
  mainColor : Option String := none
  controlColor : Option String := none
  originColor : Option String := none
  outputPrecision : Option Nat := none
deriving DecidableEq, Repr

/-- One group as serialized by `saveState` (plain coordinate tuples). -/
def saveGroup (g : CurveGroup) : SavedGroup :=
  { id := g.id,
    points := g.points.map fun p => ⟨p.x, p.y⟩,
    controls := g.controls.map fun c => ⟨c.p1.x, c.p1.y, c.p2.x, c.p2.y⟩ }

/-- One group as reconstructed by `loadState` (fresh instances from the
raw tuples). -/
def loadGroup (g : SavedGroup) : CurveGroup :=
  { id := g.id,
    points := g.points.map fun p => (⟨p.x, p.y⟩ : Pt),
    controls := g.controls.map fun c => (⟨⟨c.x1, c.y1⟩, ⟨c.x2, c.y2⟩⟩ : Control) }

/-- `saveState`: the snapshot value the source serializes.
`activeGroupId` is `this.activeCurveGroup?.id`, which serializes to an
absent key when no group is active. -/
def saveState (s : EditorState) : Snapshot :=
  { originPos := some s.originPos,
    curveGroups := some (s.curveGroups.map saveGroup),
    activeGroupId := s.activeId,
    reference := some
      { scale := s.reference.scale,
        offset := s.reference.offset,
        opacity := s.reference.opacity,
        color := s.reference.color,
        data := s.reference.getSaveData },
    activeTool := some s.activeTool,
    lineWidth := some s.lineWidth,
    pointRange := some s.pointRange,
    pointSize := some s.pointSize,
    activeOpacity := some s.activeOpacity,
    inactiveOpacity := some s.inactiveOpacity,
    mainColor := some s.mainColor,
    controlColor := some s.controlColor,
    originColor := some s.originColor,
    outputPrecision := some s.outputPrecision }

/-- `loadState`: every present top-level field is applied independently.
The nine display keys go through the generic `setProperty` (a raw field
write, so `pointRangeHalf` / `pointSizeHalf` are not recomputed); the
reference payload is only applied when truthy (non-empty). -/
def loadState (s0 : EditorState) (state : Snapshot) : EditorState :=
  let s := match state.originPos with
    | some p => { s0 with originPos := p }
    | none => s0
  let s := match state.curveGroups with
    | some gs => { s with curveGroups := gs.map loadGroup }
    | none => s
  let s := match state.activeGroupId with
    | some id => setActiveGroupId s id
    | none => s
  let s := match state.reference with
    | some r =>
      let ref := { s.reference with
        scale := r.scale, offset := r.offset, opacity := r.opacity, color := r.color }
      let ref := if r.data ≠ "" then ref.setData r.data else ref
      { s with reference := ref }
    | none => s
  let s := match state.activeTool with
    | some t => { s with activeTool := t }
    | none => s
  let s := match state.lineWidth with
    | some v => { s with lineWidth := v }
    | none => s
  let s := match state.pointRange with
    | some v => { s with pointRange := v }
    | none => s
  let s := match state.pointSize with
    | some v => { s with pointSize := v }
    | none => s
  let s := match state.activeOpacity with
    | some v => { s with activeOpacity := v }
    | none => s
  let s := match state.inactiveOpacity with
    | some v => { s with inactiveOpacity := v }
    | none => s
  let s := match state.mainColor with
    | some v => { s with mainColor := v }
    | none => s
  let s := match state.controlColor with
    | some v => { s with controlColor := v }
    | none => s
  let s := match state.originColor with
    | some v => { s with originColor := v }
    | none => s
  match state.outputPrecision with
  | some v => { s with outputPrecision := v }
  | none => s

/-! ## SVG exporter -/

/-- Left-pads a digit string with zeros to the given width. -/
def padZeros (s : String) (n : Nat) : String :=
  String.mk (List.replicate (n - s.length) '0') ++ s

/-- Decimal rendering of `n` scaled down by `10 ^ p` with exactly `p`
fractional digits (no decimal point when `p = 0`). -/
def natFixed (n p : Nat) : String :=
  if p = 0 then Nat.repr n
  else Nat.repr (n / 10 ^ p) ++ "." ++ padZeros (Nat.repr (n % 10 ^ p)) p

/-- `Number.prototype.toFixed` on an exact rational: strip the sign,
pick the integer `n` with `n / 10 ^ p` closest to the magnitude (ties
toward the larger `n`, i.e. `⌊q·10^p + 1/2⌋`), and render. -/
def ratToFixed (q : ℚ) (p : Nat) : String :=
  if q < 0 then "-" ++ natFixed (⌊-q * 10 ^ p + 1 / 2⌋).toNat p
  else natFixed (⌊q * 10 ^ p + 1 / 2⌋).toNat p

/-- `getSVGCoords`: height first, then width — the emitted pair order is
(y, x). -/
def getSVGCoords (p : Pt) (precision : Nat) : String :=
  ratToFixed p.y precision ++ " " ++ ratToFixed p.x precision

/-- The `pathData` array built by the source's loop: an absolute move
for `points[0]`, then for each `i ∈ [1, points.length)` a cubic command
through `controls[i-1]`'s endpoints to `points[i]`. -/
def svgPathData (points : List Pt) (controls : List Control) (precision : Nat) :
    List String :=
  ("M" ++ getSVGCoords (points.getD 0 default) precision) ::
    ((List.range points.length).drop 1).map fun i =>
      let c := controls.getD (i - 1) default
      "C" ++ getSVGCoords c.p1 precision ++ ", " ++ getSVGCoords c.p2 precision ++
        ", " ++ getSVGCoords (points.getD i default) precision

/-- `getSVGString`: one `path` element per group with more than one
point, joined under the fixed `svg` header (`viewBox` is the 1024x768
canvas). -/
def getSVGString (s : EditorState) : String :=
  String.intercalate "\n"
    ["<svg xmlns=\"http://www.w3.org/2000/svg\" viewBox=\"0 0 1024 768\" fill=\"none\" stroke=\"" ++
        s.mainColor ++ "\">",
      String.intercalate "\n"
        ((s.curveGroups.filter fun g => 1 < g.points.length).map fun g =>
          "\t<path d=\"" ++
            String.intercalate " " (svgPathData g.points g.controls s.outputPrecision) ++
            "\" />"),
      "</svg>"]

/-- The spec's description of a path datum: an absolute move to the
first point followed by one cubic-Bezier-to command per subsequent
point, using that segment's control handle's two endpoints. -/
def svgPathDataSpec (points : List Pt) (controls : List Control) (precision : Nat) :
    List String :=
  match points with
  | [] => ["M" ++ getSVGCoords default precision]
  | p0 :: rest =>
    ("M" ++ getSVGCoords p0 precision) ::
      (rest.zip controls).map fun pc =>
        "C" ++ getSVGCoords pc.2.p1 precision ++ ", " ++ getSVGCoords pc.2.p2 precision ++
          ", " ++ getSVGCoords pc.1 precision

/-- The spec's description of the whole SVG document: groups with at
most one point are skipped entirely. -/
def getSVGStringSpec (s : EditorState) : String :=
  String.intercalate "\n"
    ["<svg xmlns=\"http://www.w3.org/2000/svg\" viewBox=\"0 0 1024 768\" fill=\"none\" stroke=\"" ++
        s.mainColor ++ "\">",
      String.intercalate "\n"
        ((s.curveGroups.filter fun g => 1 < g.points.length).map fun g =>
          "\t<path d=\"" ++
            String.intercalate " " (svgPathDataSpec g.points g.controls s.outputPrecision) ++
            "\" />"),
      "</svg>"]

/-! ## The ADD_POINTS control synthesis as written in the source

The source computes the handle endpoints with `Math.atan2`, `Math.cos`,
`Math.sin` and `Point.distanceTo` (`Math.sqrt`); these are modelled over
`ℝ`.  Claim C9 proves this equals the 20%/80% interpolation used in the
executable `ℚ` model (`addPointToGroup`). -/

structure RPt where
  x : ℝ
  y : ℝ

/-- `Math.atan2 y x`, via the complex argument of `x + iy` (both give
the angle in `(-π, π]`, and `0` at the origin). -/
noncomputable def atan2 (y x : ℝ) : ℝ := Complex.arg ⟨x, y⟩

/-- `Point.distanceTo`: `a = this.x - point.x`, `b = this.y - point.y`,
`sqrt (a*a + b*b)`. -/
noncomputable def distanceTo (p point : RPt) : ℝ :=
  Real.sqrt ((p.x - point.x) * (p.x - point.x) + (p.y - point.y) * (p.y - point.y))

/-- The ADD_POINTS control synthesis exactly as in the source: angle and
distance between the previous two points, endpoints at 20% and 80% of
the distance along that angle. -/
noncomputable def synthControl (point1 point2 : RPt) : RPt × RPt :=
  let angle := atan2 (point2.y - point1.y) (point2.x - point1.x)
  let distance := distanceTo point1 point2
  (⟨point1.x + Real.cos angle * distance * 0.2, point1.y + Real.sin angle * distance * 0.2⟩,
   ⟨point1.x + Real.cos angle * distance * 0.8, point1.y + Real.sin angle * distance * 0.8⟩)

/-! ## Helper lemmas -/

theorem loadGroup_saveGroup (g : CurveGroup) : loadGroup (saveGroup g) = g := by
  cases g with
  | mk gid points controls =>
    simp only [loadGroup, saveGroup, List.map_map, CurveGroup.mk.injEq, true_and]
    exact ⟨List.map_id'' (fun p => rfl) points, List.map_id'' (fun c => rfl) controls⟩

theorem getSaveData_ne_empty {r : ReferenceImage} (h : r.getSaveData ≠ "") :
    r.getSaveData = r.data := by
  by_cases hc : ((blobSize r.data : ℚ) / 1000000 < 4000000)
  · simp [ReferenceImage.getSaveData, hc]
  · exact absurd (by simp [ReferenceImage.getSaveData, hc]) h

/-- A same-instance save/load round trip restores the editor state
exactly: every field `loadState` touches is written back with the value
`saveState` read from the very same state. -/
theorem load_save (s : EditorState) : loadState s (saveState s) = s := by
  have hgroups : (s.curveGroups.map saveGroup).map loadGroup = s.curveGroups := by
    rw [List.map_map]
    exact List.map_id'' loadGroup_saveGroup s.curveGroups
  cases hA : s.activeId with
  | none =>
    by_cases hd : s.reference.getSaveData = ""
    · simp [loadState, saveState, hgroups, hA, hd, ReferenceImage.setData]
      rw [← hA]
    · simp [loadState, saveState, hgroups, hA, hd, ReferenceImage.setData,
        getSaveData_ne_empty hd]
      rw [← hA]
  | some id =>
    by_cases hd : s.reference.getSaveData = ""
    · cases hF : s.curveGroups.find? (fun g => g.id == id) with
      | none =>
        simp [loadState, saveState, hgroups, hA, hd, ReferenceImage.setData,
          setActiveGroupId, hF]
        rw [← hA]
      | some g =>
        simp [loadState, saveState, hgroups, hA, hd, ReferenceImage.setData,
          setActiveGroupId, hF]
        rw [← hA]
    · cases hF : s.curveGroups.find? (fun g => g.id == id) with
      | none =>
        simp [loadState, saveState, hgroups, hA, hd, ReferenceImage.setData,
          setActiveGroupId, hF, getSaveData_ne_empty hd]
        rw [← hA]
      | some g =>
        simp [loadState, saveState, hgroups, hA, hd, ReferenceImage.setData,
          setActiveGroupId, hF, getSaveData_ne_empty hd]
        rw [← hA]

/-! ## Claims -/

/-- Claim C10: for every id, `createGroup` appends a new curve group
with that id and empty points and controls to the end of the collection
and unconditionally makes it the active group, replacing any previously
active reference. -/
theorem claim_C10 (s : EditorState) (id : String) :
    (createGroup s id).curveGroups =
        s.curveGroups ++ [{ id := id, points := [], controls := [] }] ∧
    (createGroup s id).activeId = some id :=
  ⟨rfl, rfl⟩

/-- A 4,000,000-byte payload (4,000,000 ASCII characters). -/
def bigData : String := String.mk (List.replicate 4000000 'a')

theorem utf8Len_replicate_a (n : Nat) :
    String.utf8Len (List.replicate n 'a') = n := by
  induction n with
  | zero => rfl
  | succ k ih =>
    simp [List.replicate_succ, ih]
    rfl

theorem blobSize_bigData : blobSize bigData = 4000000 := by
  show String.utf8ByteSize (String.mk (List.replicate 4000000 'a')) = 4000000
  rw [String.utf8ByteSize_mk]
  exact utf8Len_replicate_a 4000000

/-- Claim C4: evidence that the code diverges from this claim.  The
claim says the payload is included iff its byte size is strictly below
4,000,000; but `getSaveData` divides the byte size by 1,000,000 before
comparing it to 4,000,000, so a payload of exactly 4,000,000 bytes
(size 4 after division) is still included in the snapshot. -/
theorem claim_C4 :
    blobSize (ReferenceImage.mk false bigData 0 0 ⟨0, 0⟩ 1 ⟨0, 0⟩ false false 1
        "#ff0099").data = 4000000 ∧
    (ReferenceImage.mk false bigData 0 0 ⟨0, 0⟩ 1 ⟨0, 0⟩ false false 1
        "#ff0099").getSaveData = bigData := by
  refine ⟨blobSize_bigData, ?_⟩
  have h : ((blobSize bigData : ℚ) / 1000000 < 4000000) := by
    rw [blobSize_bigData]; norm_num
  simp only [ReferenceImage.getSaveData]
  rw [if_pos h]

/-- Claim C2 (amended): for every editor state, `saveState` followed by
`loadState` of the resulting snapshot on the same editor restores the
state exactly — same groups (ids, points, controls), origin, active
tool, display fields including the cached half-values, and reference
transform; the reference-image payload is always preserved by this round
trip (when the saved image field is empty, `loadState` leaves the
current payload untouched). -/
theorem claim_C2 (s : EditorState) : loadState s (saveState s) = s :=
  load_save s

/-- The editor state holding the 4,000,000-byte reference payload. -/
def bigState : EditorState := { reference := { data := bigData } }

/-- Claim C2, counterexample to the original wording: the payload of
`bigState` is not below the 4,000,000-byte cap, yet the round trip
preserves it. -/
theorem claim_C2_cex :
    ¬ blobSize bigState.reference.data < 4000000 ∧
    (loadState bigState (saveState bigState)).reference.data =
      bigState.reference.data := by
  constructor
  · show ¬ blobSize bigData < 4000000
    rw [blobSize_bigData]
    exact Nat.lt_irrefl 4000000
  · rw [load_save]

theorem addPointToGroup_id (m : Pt) (g : CurveGroup) :
    (addPointToGroup m g).id = g.id := by
  simp only [addPointToGroup]
  split <;> rfl

theorem addPointToGroup_points (m : Pt) (g : CurveGroup) :
    (addPointToGroup m g).points = g.points ++ [m] := by
  simp only [addPointToGroup]
  split <;> rfl

theorem find?_updateGroup (gs : List CurveGroup) (id : String)
    (f : CurveGroup → CurveGroup) (hf : ∀ g, (f g).id = g.id) (g : CurveGroup)
    (h : gs.find? (fun g => g.id == id) = some g) :
    (updateGroup gs id f).find? (fun g => g.id == id) = some (f g) := by
  induction gs with
  | nil => simp at h
  | cons a rest ih =>
    by_cases ha : a.id == id
    · simp only [List.find?, ha] at h
      injection h with h
      subst h
      simp [updateGroup, ha, List.find?, hf]
    · have ha' : (a.id == id) = false := by simpa using ha
      simp only [List.find?, ha'] at h
      simp [updateGroup, ha', List.find?, ih h]

/-- Claim C6 (amended): in ADD_POINTS mode a pointer-down with no active
group reports the advisory message and performs no mutation; with an
active group it is silently ignored exactly when the pointer lies
outside the *closed* 1024x768 canvas box (the source's bounds test is
non-strict, so boundary positions are accepted); otherwise exactly one
new point at the pointer position is appended to the active group. -/
theorem claim_C6 (s : EditorState) (hTool : s.activeTool = ADD_POINTS) :
    (s.activeId = none → handleMouseDown s = (s, some addPointMessage)) ∧
    (∀ id, s.activeId = some id →
      ((s.mousePos.x < 0 ∨ s.mousePos.x > canvasWidth ∨ s.mousePos.y < 0 ∨
          s.mousePos.y > canvasHeight) →
        handleMouseDown s = (s, none)) ∧
      (¬ (s.mousePos.x < 0 ∨ s.mousePos.x > canvasWidth ∨ s.mousePos.y < 0 ∨
          s.mousePos.y > canvasHeight) →
        (handleMouseDown s).2 = none ∧
        ∀ g, activeGroup? s = some g →
          ∃ g', activeGroup? (handleMouseDown s).1 = some g' ∧
            g'.points = g.points ++ [s.mousePos])) := by
  refine ⟨fun hA => ?_, fun id hA => ⟨fun hOut => ?_, fun hIn => ⟨?_, fun g hg => ?_⟩⟩⟩
  · simp [handleMouseDown, hTool, hA]
  · simp [handleMouseDown, hTool, hA, hOut]
  · simp [handleMouseDown, hTool, hA, hIn]
  · refine ⟨addPointToGroup s.mousePos g, ?_, addPointToGroup_points s.mousePos g⟩
    simp only [activeGroup?, hA, Option.bind_some] at hg
    simp [handleMouseDown, hTool, hA, hIn, activeGroup?,
      find?_updateGroup s.curveGroups id (addPointToGroup s.mousePos)
        (addPointToGroup_id s.mousePos) g hg]

/-- A state poised to add a point at the canvas corner (0,0). -/
def exC6 : EditorState :=
  { curveGroups := [{ id := "g" }], activeId := some "g",
    activeTool := ADD_POINTS, mousePos := ⟨0, 0⟩ }

/-- Claim C6, counterexample to the original wording: the pointer at
(0,0) is not strictly inside the canvas bounds, yet the pointer-down is
not ignored — it appends the point (0,0) to the active group. -/
theorem claim_C6_cex :
    (activeGroup? (handleMouseDown exC6).1).map CurveGroup.points =
        some [⟨0, 0⟩] ∧
    (handleMouseDown exC6).2 = none := by
  constructor <;> with_unfolding_all rfl

/-- A fresh state in ADD_POINTS mode with no active group. -/
def exC6b : EditorState := { activeTool := ADD_POINTS }

/-- Claim C6, witness: the no-active-group branch at a concrete state. -/
theorem claim_C6_witness :
    handleMouseDown exC6b = (exC6b, some addPointMessage) :=
  (claim_C6 exC6b rfl).1 rfl

theorem cos_atan2_mul (a b : ℝ) :
    Real.cos (atan2 b a) * Real.sqrt (a * a + b * b) = a := by
  by_cases h : (⟨a, b⟩ : ℂ) = 0
  · have ha : a = 0 := congrArg Complex.re h
    have hb : b = 0 := congrArg Complex.im h
    simp [atan2, ha, hb]
  · have habs : Real.sqrt (a * a + b * b) = Complex.abs ⟨a, b⟩ := by
      rw [Complex.abs_apply, Complex.normSq_mk]
    rw [habs, atan2, Complex.cos_arg h]
    have hne : Complex.abs ⟨a, b⟩ ≠ 0 := by simpa using h
    field_simp

theorem sin_atan2_mul (a b : ℝ) :
    Real.sin (atan2 b a) * Real.sqrt (a * a + b * b) = b := by
  by_cases h : (⟨a, b⟩ : ℂ) = 0
  · have ha : a = 0 := congrArg Complex.re h
    have hb : b = 0 := congrArg Complex.im h
    simp [atan2, ha, hb]
  · have habs : Real.sqrt (a * a + b * b) = Complex.abs ⟨a, b⟩ := by
      rw [Complex.abs_apply, Complex.normSq_mk]
    rw [habs, atan2, Complex.sin_arg]
    have hne : Complex.abs ⟨a, b⟩ ≠ 0 := by simpa using h
    field_simp

/-- The source's angle/distance construction collapses to the 20%/80%
interpolation along the segment. -/
theorem synthControl_eq_lerp (point1 point2 : RPt) :
    synthControl point1 point2 =
      (⟨point1.x + (point2.x - point1.x) * 0.2, point1.y + (point2.y - point1.y) * 0.2⟩,
       ⟨point1.x + (point2.x - point1.x) * 0.8, point1.y + (point2.y - point1.y) * 0.8⟩) := by
  have hd : distanceTo point1 point2 =
      Real.sqrt ((point2.x - point1.x) * (point2.x - point1.x) +
        (point2.y - point1.y) * (point2.y - point1.y)) := by
    unfold distanceTo
    congr 1
    ring
  simp only [synthControl, hd, Prod.mk.injEq, RPt.mk.injEq]
  rw [cos_atan2_mul, sin_atan2_mul]
  exact ⟨⟨rfl, rfl⟩, rfl, rfl⟩

theorem addPointToGroup_controls (m : Pt) (g : CurveGroup) (hNe : g.points ≠ []) :
    (addPointToGroup m g).controls = g.controls ++
      [⟨⟨(g.points.getLast hNe).x + (m.x - (g.points.getLast hNe).x) * 0.2,
         (g.points.getLast hNe).y + (m.y - (g.points.getLast hNe).y) * 0.2⟩,
        ⟨(g.points.getLast hNe).x + (m.x - (g.points.getLast hNe).x) * 0.8,
         (g.points.getLast hNe).y + (m.y - (g.points.getLast hNe).y) * 0.8⟩⟩] := by
  have hlen : 0 < g.points.length := List.length_pos.mpr hNe
  have h1 : 1 < (g.points ++ [m]).length := by
    simp only [List.length_append, List.length_cons, List.length_nil]
    omega
  have hi2 : (g.points ++ [m]).length - 2 = g.points.length - 1 := by
    simp only [List.length_append, List.length_cons, List.length_nil]
    omega
  have hi1 : (g.points ++ [m]).length - 1 = g.points.length := by
    simp only [List.length_append, List.length_cons, List.length_nil]
    omega
  have hp1 : (g.points ++ [m]).getD ((g.points ++ [m]).length - 2) default =
      g.points.getLast hNe := by
    rw [hi2, List.getD_eq_getElem?_getD,
      List.getElem?_eq_getElem (by simp only [List.length_append]; omega),
      List.getElem_append_left (by omega), Option.getD_some,
      List.getLast_eq_getElem]
  have hp2 : (g.points ++ [m]).getD ((g.points ++ [m]).length - 1) default = m := by
    rw [hi1, List.getD_eq_getElem?_getD, List.getElem?_concat_length,
      Option.getD_some]
  simp only [addPointToGroup]
  rw [if_pos h1]
  simp only [hp1, hp2]

/-- Claim C9: in ADD_POINTS mode, appending a point to a non-empty
active group creates exactly one new control handle whose endpoints are
the 20% and 80% interpolation between the previous last point and the
new point; and over the reals the source's angle/distance construction
(`synthControl`) is exactly that interpolation. -/
theorem claim_C9 (s : EditorState) (g : CurveGroup) (id : String)
    (hTool : s.activeTool = ADD_POINTS) (hId : s.activeId = some id)
    (hg : s.curveGroups.find? (fun g => g.id == id) = some g)
    (hNe : g.points ≠ [])
    (hIn : ¬ (s.mousePos.x < 0 ∨ s.mousePos.x > canvasWidth ∨ s.mousePos.y < 0 ∨
      s.mousePos.y > canvasHeight)) :
    (∃ g', activeGroup? (handleMouseDown s).1 = some g' ∧
      g'.points = g.points ++ [s.mousePos] ∧
      g'.controls = g.controls ++
        [⟨⟨(g.points.getLast hNe).x + (s.mousePos.x - (g.points.getLast hNe).x) * 0.2,
           (g.points.getLast hNe).y + (s.mousePos.y - (g.points.getLast hNe).y) * 0.2⟩,
          ⟨(g.points.getLast hNe).x + (s.mousePos.x - (g.points.getLast hNe).x) * 0.8,
           (g.points.getLast hNe).y + (s.mousePos.y - (g.points.getLast hNe).y) * 0.8⟩⟩]) ∧
    (∀ point1 point2 : RPt, synthControl point1 point2 =
      (⟨point1.x + (point2.x - point1.x) * 0.2, point1.y + (point2.y - point1.y) * 0.2⟩,
       ⟨point1.x + (point2.x - point1.x) * 0.8, point1.y + (point2.y - point1.y) * 0.8⟩)) := by
  refine ⟨⟨addPointToGroup s.mousePos g, ?_,
      addPointToGroup_points s.mousePos g, addPointToGroup_controls s.mousePos g hNe⟩,
    fun point1 point2 => synthControl_eq_lerp point1 point2⟩
  simp [handleMouseDown, hTool, hId, hIn, activeGroup?,
    find?_updateGroup s.curveGroups id (addPointToGroup s.mousePos)
      (addPointToGroup_id s.mousePos) g hg]

/-- The spec's worked ADD_POINTS example: group points [(0,0)], click at
(100,0). -/
def exC9 : EditorState :=
  { curveGroups := [{ id := "g", points := [⟨0, 0⟩] }], activeId := some "g",
    activeTool := ADD_POINTS, mousePos := ⟨100, 0⟩ }

/-- Claim C9, witness: clicking at (100,0) with points [(0,0)] yields
the control endpoints (20,0) and (80,0). -/
theorem claim_C9_witness :
    ∃ g', activeGroup? (handleMouseDown exC9).1 = some g' ∧
      g'.points = [⟨0, 0⟩] ++ [⟨100, 0⟩] ∧
      g'.controls = [] ++
        [⟨⟨(0 : ℚ) + (100 - 0) * 0.2, (0 : ℚ) + (0 - 0) * 0.2⟩,
          ⟨(0 : ℚ) + (100 - 0) * 0.8, (0 : ℚ) + (0 - 0) * 0.8⟩⟩] :=
  (claim_C9 exC9 { id := "g", points := [⟨0, 0⟩] } "g" rfl rfl
    (by with_unfolding_all rfl) (by simp)
    (by with_unfolding_all decide)).1

/-! ## Claim C1: the points/controls length invariant -/

/-- Pointer positions the ADD_POINTS bounds test accepts (the closed
canvas box). -/
def inBounds (p : Pt) : Prop :=
  0 ≤ p.x ∧ p.x ≤ canvasWidth ∧ 0 ≤ p.y ∧ p.y ≤ canvasHeight

instance (p : Pt) : Decidable (inBounds p) := by
  unfold inBounds
  infer_instance

/-- One committed editing command on the active group: an ADD_POINTS
pointer-down at a position (a pointer move followed by the mouse-down
handler), or the delete-last-point command. -/
inductive GroupOp where
  | add : Pt → GroupOp
  | deleteLast : GroupOp
deriving DecidableEq, Repr

def applyGroupOp (s : EditorState) : GroupOp → EditorState
  | .add p => (handleMouseDown { s with mousePos := p }).1
  | .deleteLast => deleteLastPoint s

def opInBounds : GroupOp → Bool
  | .add p => decide (inBounds p)
  | .deleteLast => true

/-- The committed length invariant for every group carrying the given
id. -/
def groupsWf (s : EditorState) (id : String) : Prop :=
  ∀ g ∈ s.curveGroups, g.id = id → g.controls.length = g.points.length - 1

theorem wf_addPointToGroup (m : Pt) (g : CurveGroup)
    (h : g.controls.length = g.points.length - 1) :
    (addPointToGroup m g).controls.length = (addPointToGroup m g).points.length - 1 := by
  simp only [addPointToGroup]
  by_cases hlt : 1 < (g.points ++ [m]).length
  · rw [if_pos hlt]
    simp only [List.length_append, List.length_cons, List.length_nil] at hlt ⊢
    omega
  · rw [if_neg hlt]
    simp only [List.length_append, List.length_cons, List.length_nil] at hlt ⊢
    omega

theorem mem_updateGroup {gs : List CurveGroup} {id : String}
    {f : CurveGroup → CurveGroup} {g' : CurveGroup}
    (h : g' ∈ updateGroup gs id f) :
    g' ∈ gs ∨ ∃ g ∈ gs, (g.id == id) = true ∧ g' = f g := by
  induction gs with
  | nil => simp [updateGroup] at h
  | cons a rest ih =>
    by_cases ha : a.id == id
    · simp only [updateGroup, ha, if_true] at h
      rcases List.mem_cons.mp h with h | h
      · exact Or.inr ⟨a, List.mem_cons_self a rest, ha, h⟩
      · exact Or.inl (List.mem_cons_of_mem a h)
    · have ha' : (a.id == id) = false := by simpa using ha
      simp only [updateGroup, ha', Bool.false_eq_true, if_false] at h
      rcases List.mem_cons.mp h with h | h
      · exact Or.inl (h ▸ List.mem_cons_self a rest)
      · rcases ih h with h | ⟨g, hgmem, hgid, hgf⟩
        · exact Or.inl (List.mem_cons_of_mem a h)
        · exact Or.inr ⟨g, List.mem_cons_of_mem a hgmem, hgid, hgf⟩

theorem groupsWf_updateGroup {gs : List CurveGroup} {id : String}
    {f : CurveGroup → CurveGroup}
    (hwff : ∀ g, g.controls.length = g.points.length - 1 →
      (f g).controls.length = (f g).points.length - 1)
    (hwf : ∀ g ∈ gs, g.id = id → g.controls.length = g.points.length - 1) :
    ∀ g ∈ updateGroup gs id f, g.id = id →
      g.controls.length = g.points.length - 1 := by
  intro g' hmem hgid
  rcases mem_updateGroup hmem with h | ⟨g, hgmem, hbeq, rfl⟩
  · exact hwf g' h hgid
  · exact hwff g (hwf g hgmem (by simpa using hbeq))

theorem step_preserves_C1 (s : EditorState) (id : String) (op : GroupOp)
    (hTool : s.activeTool = ADD_POINTS) (hId : s.activeId = some id)
    (hwf : groupsWf s id) (hb : opInBounds op = true) :
    (applyGroupOp s op).activeTool = ADD_POINTS ∧
    (applyGroupOp s op).activeId = some id ∧
    groupsWf (applyGroupOp s op) id := by
  cases op with
  | add p =>
    have hin : inBounds p := of_decide_eq_true hb
    have hnot : ¬ (p.x < 0 ∨ p.x > canvasWidth ∨ p.y < 0 ∨ p.y > canvasHeight) := by
      rcases hin with ⟨h1, h2, h3, h4⟩
      push_neg
      exact ⟨h1, h2, h3, h4⟩
    simp only [applyGroupOp, handleMouseDown, hTool, hId, hnot, if_true, if_false,
      ite_true, ite_false, if_pos, reduceIte]
    refine ⟨by simp [hTool], by simp [hId], ?_⟩
    intro g' hmem hgid
    refine groupsWf_updateGroup (wf_addPointToGroup p) hwf g' ?_ hgid
    simpa using hmem
  | deleteLast =>
    simp only [applyGroupOp, deleteLastPoint]
    cases hag : activeGroup? s with
    | none => exact ⟨hTool, hId, hwf⟩
    | some g =>
      simp only []
      by_cases hlen : 0 < g.points.length
      · rw [if_pos hlen]
        refine ⟨by simp [hTool], by simp [hId], ?_⟩
        have hgid : (g.id == id) = true := by
          simp only [activeGroup?, hId, Option.bind_some] at hag
          simpa using List.find?_some hag
        intro g' hmem hgid'
        have hgi : g.id = id := by simpa using hgid
        simp only [] at hmem
        rw [hgi] at hmem
        exact groupsWf_updateGroup
          (fun g h => by simp only [List.length_dropLast]; omega) hwf g' hmem hgid'
      · rw [if_neg hlen]
        exact ⟨hTool, hId, hwf⟩

/-- Claim C1: starting from a freshly created group, after any finite
sequence of in-bounds ADD_POINTS pointer-downs and delete-last-point
commands, every committed state satisfies
`controls.length = points.length - 1` when there are points and
`controls.length = 0` when there are none. -/
theorem claim_C1 (s0 : EditorState) (id : String) (ops : List GroupOp)
    (hTool : s0.activeTool = ADD_POINTS)
    (hFresh : ∀ g ∈ s0.curveGroups, g.id ≠ id)
    (hB : ∀ op ∈ ops, opInBounds op = true) :
    ∀ g ∈ (ops.foldl applyGroupOp (createGroup s0 id)).curveGroups, g.id = id →
      (0 < g.points.length → g.controls.length = g.points.length - 1) ∧
      (g.points.length = 0 → g.controls.length = 0) := by
  have main : ∀ (ops : List GroupOp) (s : EditorState),
      s.activeTool = ADD_POINTS → s.activeId = some id → groupsWf s id →
      (∀ op ∈ ops, opInBounds op = true) →
      groupsWf (ops.foldl applyGroupOp s) id := by
    intro ops
    induction ops with
    | nil =>
      intro s _ _ h3 _
      exact h3
    | cons op rest ih =>
      intro s h1 h2 h3 h4
      have hstep := step_preserves_C1 s id op h1 h2 h3 (h4 op (List.mem_cons_self op rest))
      exact ih _ hstep.1 hstep.2.1 hstep.2.2 fun o ho => h4 o (List.mem_cons_of_mem op ho)
  have base : groupsWf (createGroup s0 id) id := by
    intro g hg hgid
    have hg2 : g ∈ s0.curveGroups ∨ g = { id := id, points := [], controls := [] } := by
      simpa [createGroup] using hg
    rcases hg2 with h | h
    · exact absurd hgid (hFresh g h)
    · rw [h]
      rfl
  have hwf := main ops (createGroup s0 id) (by simp [createGroup, hTool]) rfl base hB
  intro g hg hgid
  have hg' := hwf g hg hgid
  omega

/-- A fresh editor in ADD_POINTS mode. -/
def exC1 : EditorState := { activeTool := ADD_POINTS }

/-- A concrete op sequence: add, add, delete-last, add. -/
def exC1ops : List GroupOp :=
  [.add ⟨10, 10⟩, .add ⟨50, 50⟩, .deleteLast, .add ⟨3, 4⟩]

/-- Claim C1, witness: the invariant after a concrete op sequence on a
freshly created group. -/
theorem claim_C1_witness :
    (∀ op ∈ exC1ops, opInBounds op = true) ∧
    ∀ g ∈ (exC1ops.foldl applyGroupOp (createGroup exC1 "g1")).curveGroups,
      g.id = "g1" →
      (0 < g.points.length → g.controls.length = g.points.length - 1) ∧
      (g.points.length = 0 → g.controls.length = 0) :=
  ⟨by with_unfolding_all decide,
   claim_C1 exC1 "g1" exC1ops rfl (by simp [exC1]) (by with_unfolding_all decide)⟩

/-! ## Claim C3: an unreleased drag never mutates committed state -/

/-- The state after a pointer-down followed by an arbitrary tail of
events. -/
def afterDrag (s : EditorState) (evs : List Event) : EditorState :=
  evs.foldl step (step s Event.down)

/-- The live drag delta: current pointer minus drag anchor. -/
def liveDelta (s : EditorState) : Pt :=
  ⟨s.mousePos.x - (s.dragStart.getD default).x,
   s.mousePos.y - (s.dragStart.getD default).y⟩

theorem step_not_updown_preserves (s : EditorState) (e : Event)
    (he : e ≠ Event.down ∧ e ≠ Event.up) :
    (step s e).curveGroups = s.curveGroups ∧ (step s e).originPos = s.originPos := by
  cases e with
  | move p => exact ⟨rfl, rfl⟩
  | down => exact absurd rfl he.1
  | up => exact absurd rfl he.2
  | frame => exact ⟨rfl, rfl⟩

theorem foldl_not_updown_preserves (evs : List Event) :
    ∀ s : EditorState, (∀ e ∈ evs, e ≠ Event.down ∧ e ≠ Event.up) →
    (evs.foldl step s).curveGroups = s.curveGroups ∧
    (evs.foldl step s).originPos = s.originPos := by
  induction evs with
  | nil => exact fun s _ => ⟨rfl, rfl⟩
  | cons e rest ih =>
    intro s h
    have h1 := step_not_updown_preserves s e (h e (List.mem_cons_self e rest))
    have h2 := ih (step s e) fun x hx => h x (List.mem_cons_of_mem e hx)
    exact ⟨h2.1.trans h1.1, h2.2.trans h1.2⟩

theorem refMouseDown_id (r : ReferenceImage) (tool : Nat) (mouse : Pt)
    (h : tool ≠ TRANSFORM_REFERENCE) : refMouseDown r tool mouse = r := by
  simp [refMouseDown, h]

theorem mouseDown_edit_preserves (s : EditorState)
    (h : s.activeTool = EDIT_POINTS ∨ s.activeTool = EDIT_CONTROLS ∨
      s.activeTool = EDIT_ORIGIN_POINT) :
    (handleMouseDown s).1.curveGroups = s.curveGroups ∧
    (handleMouseDown s).1.originPos = s.originPos := by
  rcases h with h | h | h
  · simp only [handleMouseDown, h, EDIT_POINTS, ADD_POINTS, EDIT_CONTROLS,
      EDIT_ORIGIN_POINT]
    norm_num
    cases activeGroup? s with
    | none => exact ⟨rfl, rfl⟩
    | some g =>
      simp only []
      cases scanPoints (fun p => hitBox s.mousePos p s.pointRangeHalf) g.points 0 with
      | none => exact ⟨rfl, rfl⟩
      | some i => exact ⟨rfl, rfl⟩
  · simp only [handleMouseDown, h, EDIT_POINTS, ADD_POINTS, EDIT_CONTROLS,
      EDIT_ORIGIN_POINT]
    norm_num
    cases activeGroup? s with
    | none => exact ⟨rfl, rfl⟩
    | some g => exact ⟨rfl, rfl⟩
  · simp only [handleMouseDown, h, EDIT_POINTS, ADD_POINTS, EDIT_CONTROLS,
      EDIT_ORIGIN_POINT]
    norm_num
    by_cases hb : hitBox s.mousePos s.originPos originSizeHalf
    · rw [if_pos hb]
      exact ⟨rfl, rfl⟩
    · rw [if_neg hb]
      exact ⟨rfl, rfl⟩

/-- Claim C3: a drag begun by a pointer-down in EDIT_POINTS,
EDIT_CONTROLS or EDIT_ORIGIN_POINT that is never followed by a
pointer-up leaves all committed coordinates (group points, control
endpoints, origin) unchanged across any number of pointer moves and
update passes; the preview coordinates the update pass renders are
committed position plus the live delta, computed without writing stored
coordinates. -/
theorem claim_C3 (s : EditorState) (evs : List Event)
    (hTool : s.activeTool = EDIT_POINTS ∨ s.activeTool = EDIT_CONTROLS ∨
      s.activeTool = EDIT_ORIGIN_POINT)
    (hevs : ∀ e ∈ evs, e ≠ Event.down ∧ e ≠ Event.up) :
    (afterDrag s evs).curveGroups = s.curveGroups ∧
    (afterDrag s evs).originPos = s.originPos ∧
    (∀ j p, (afterDrag s evs).activeTool = EDIT_POINTS →
      (afterDrag s evs).dragPoint = some j →
      updatePointPos (afterDrag s evs) true j p =
        ⟨p.x + (liveDelta (afterDrag s evs)).x, p.y + (liveDelta (afterDrag s evs)).y⟩) ∧
    (∀ c i j, (afterDrag s evs).dragControl = some (i, j) →
      getEditControlPoints (afterDrag s evs) c i =
        (if j = 0 then
          (c.p1.x + (liveDelta (afterDrag s evs)).x,
           c.p1.y + (liveDelta (afterDrag s evs)).y, c.p2.x, c.p2.y)
         else
          (c.p1.x, c.p1.y, c.p2.x + (liveDelta (afterDrag s evs)).x,
           c.p2.y + (liveDelta (afterDrag s evs)).y))) ∧
    ((afterDrag s evs).dragOrigin = true →
      updateOriginPos (afterDrag s evs) =
        ⟨(afterDrag s evs).originPos.x + (liveDelta (afterDrag s evs)).x,
         (afterDrag s evs).originPos.y + (liveDelta (afterDrag s evs)).y⟩) := by
  have hdown := mouseDown_edit_preserves s hTool
  have hfold := foldl_not_updown_preserves evs (step s Event.down) hevs
  refine ⟨hfold.1.trans hdown.1, hfold.2.trans hdown.2, ?_, ?_, ?_⟩
  · intro j p htool hdrag
    simp [updatePointPos, htool, hdrag, liveDelta]
  · intro c i j hdrag
    by_cases hj : j = 0 <;> simp [getEditControlPoints, hdrag, hj, liveDelta]
  · intro horig
    simp [updateOriginPos, horig, liveDelta]

/-- A state about to start an EDIT_POINTS drag on the point (5,5). -/
def exC3 : EditorState :=
  { curveGroups := [{ id := "g", points := [⟨5, 5⟩] }], activeId := some "g",
    activeTool := EDIT_POINTS, mousePos := ⟨5, 5⟩ }

/-- Claim C3, witness: a concrete unreleased drag (down, move, frame)
leaves committed geometry unchanged. -/
theorem claim_C3_witness :
    (∀ e ∈ [Event.move ⟨9, 8⟩, Event.frame], e ≠ Event.down ∧ e ≠ Event.up) ∧
    (afterDrag exC3 [Event.move ⟨9, 8⟩, Event.frame]).curveGroups = exC3.curveGroups ∧
    (afterDrag exC3 [Event.move ⟨9, 8⟩, Event.frame]).originPos = exC3.originPos :=
  ⟨by decide,
   (claim_C3 exC3 [Event.move ⟨9, 8⟩, Event.frame] (Or.inl rfl) (by decide)).1,
   (claim_C3 exC3 [Event.move ⟨9, 8⟩, Event.frame] (Or.inl rfl) (by decide)).2.1⟩

/-! ## Claim C5: the EDIT_CONTROLS drag-target scan -/

theorem scanControls_no_hit (hit : Pt → Bool) (mouse : Pt) :
    ∀ (cs : List Control) (i : Nat) (acc : Option (Nat × Nat) × Option Pt),
    (∀ c ∈ cs, controlFirstHit c hit = none) →
    scanControls hit mouse cs i acc = acc := by
  intro cs
  induction cs with
  | nil => intro i acc _; rfl
  | cons c rest ih =>
    intro i acc h
    have hc := h c (List.mem_cons_self c rest)
    simp only [scanControls, hc]
    exact ih (i + 1) acc fun x hx => h x (List.mem_cons_of_mem c hx)

theorem scanControls_hit (hit : Pt → Bool) (mouse : Pt) :
    ∀ (cs : List Control) (i : Nat) (acc : Option (Nat × Nat) × Option Pt),
    (∃ c ∈ cs, (controlFirstHit c hit).isSome) →
    ∃ k j c, cs.get? k = some c ∧ controlFirstHit c hit = some j ∧
      (∀ m c', k < m → cs.get? m = some c' → controlFirstHit c' hit = none) ∧
      scanControls hit mouse cs i acc = (some (i + k, j), some mouse) := by
  intro cs
  induction cs with
  | nil =>
    intro i acc h
    simp at h
  | cons c rest ih =>
    intro i acc hex
    by_cases hrest : ∃ x ∈ rest, (controlFirstHit x hit).isSome
    · cases hc : controlFirstHit c hit with
      | some j0 =>
        rcases ih (i + 1) (some (i, j0), some mouse) hrest with
          ⟨k, j, cc, hk, hj, hmax, heq⟩
        refine ⟨k + 1, j, cc, by simpa using hk, hj, ?_, ?_⟩
        · intro m x hm hmx
          cases m with
          | zero => omega
          | succ n => exact hmax n x (by omega) (by simpa using hmx)
        · simp only [scanControls, hc]
          rw [heq]
          have harith : i + 1 + k = i + (k + 1) := by omega
          rw [harith]
      | none =>
        rcases ih (i + 1) acc hrest with ⟨k, j, cc, hk, hj, hmax, heq⟩
        refine ⟨k + 1, j, cc, by simpa using hk, hj, ?_, ?_⟩
        · intro m x hm hmx
          cases m with
          | zero => omega
          | succ n => exact hmax n x (by omega) (by simpa using hmx)
        · simp only [scanControls, hc]
          rw [heq]
          have harith : i + 1 + k = i + (k + 1) := by omega
          rw [harith]
    · have hrest' : ∀ x ∈ rest, controlFirstHit x hit = none := by
        intro x hx
        by_contra hne
        exact hrest ⟨x, hx, Option.isSome_iff_ne_none.mpr hne⟩
      have hch : (controlFirstHit c hit).isSome := by
        rcases hex with ⟨c0, hc0mem, hc0⟩
        rcases List.mem_cons.mp hc0mem with rfl | hmem
        · exact hc0
        · rw [hrest' c0 hmem] at hc0
          simp at hc0
      rcases Option.isSome_iff_exists.mp hch with ⟨j0, hj0⟩
      refine ⟨0, j0, c, rfl, hj0, ?_, ?_⟩
      · intro m x hm hmx
        cases m with
        | zero => omega
        | succ n => exact hrest' x (List.get?_mem (by simpa using hmx))
      · simp only [scanControls, hj0]
        rw [scanControls_no_hit hit mouse rest (i + 1) _ hrest']
        simp

/-- Claim C5 (amended): in EDIT_CONTROLS, the pointer-down scans the
controls in index order, taking within each control the first endpoint
inside the pick box — but the `break` leaves only the inner loop, so a
later control's hit overwrites an earlier one: the recorded drag target
is the first in-range endpoint of the *last* control that has one.
When no endpoint is in range, the state is unchanged. -/
theorem claim_C5 (s : EditorState) (g : CurveGroup)
    (hTool : s.activeTool = EDIT_CONTROLS) (hAct : activeGroup? s = some g) :
    ((∀ c ∈ g.controls,
        controlFirstHit c (fun p => hitBox s.mousePos p s.pointRangeHalf) = none) →
      handleMouseDown s = (s, none)) ∧
    ((∃ c ∈ g.controls,
        (controlFirstHit c (fun p => hitBox s.mousePos p s.pointRangeHalf)).isSome) →
      ∃ k j c, g.controls.get? k = some c ∧
        controlFirstHit c (fun p => hitBox s.mousePos p s.pointRangeHalf) = some j ∧
        (∀ m c', k < m → g.controls.get? m = some c' →
          controlFirstHit c' (fun p => hitBox s.mousePos p s.pointRangeHalf) = none) ∧
        (handleMouseDown s).1 =
          { s with dragControl := some (k, j), dragStart := some s.mousePos }) := by
  have h1 : s.activeTool ≠ ADD_POINTS := by rw [hTool]; decide
  have h2 : s.activeTool ≠ EDIT_POINTS := by rw [hTool]; decide
  have h0 : s.activeTool ≠ TRANSFORM_REFERENCE := by rw [hTool]; decide
  constructor
  · intro hnone
    simp only [handleMouseDown, if_neg h1, if_neg h2, if_pos hTool, hAct]
    rw [scanControls_no_hit _ _ _ _ _ hnone]
    rw [refMouseDown_id _ _ _ h0]
  · intro hex
    rcases scanControls_hit (fun p => hitBox s.mousePos p s.pointRangeHalf) s.mousePos
      g.controls 0 (s.dragControl, s.dragStart) hex with ⟨k, j, c, hk, hj, hmax, heq⟩
    refine ⟨k, j, c, hk, hj, hmax, ?_⟩
    simp only [handleMouseDown, if_neg h1, if_neg h2, if_pos hTool, hAct, heq]
    rw [refMouseDown_id _ _ _ h0]
    simp

/-- Two controls whose first endpoints are both within pick range of the
pointer at (0,0). -/
def exC5 : EditorState :=
  { curveGroups :=
      [{ id := "g", points := [],
         controls := [⟨⟨0, 0⟩, ⟨100, 100⟩⟩, ⟨⟨1, 1⟩, ⟨100, 100⟩⟩] }],
    activeId := some "g", activeTool := EDIT_CONTROLS, mousePos := ⟨0, 0⟩ }

/-- Claim C5, counterexample to the original wording: control 0's first
endpoint is within range, but the recorded drag target is (1, 0) — the
last hit control, not the first endpoint found in scan order. -/
theorem claim_C5_cex :
    hitBox exC5.mousePos ⟨0, 0⟩ exC5.pointRangeHalf = true ∧
    (handleMouseDown exC5).1.dragControl = some (1, 0) := by
  constructor <;> with_unfolding_all rfl

/-- A state whose single control is far from the pointer. -/
def exC5b : EditorState :=
  { curveGroups := [{ id := "g", controls := [⟨⟨100, 100⟩, ⟨200, 200⟩⟩] }],
    activeId := some "g", activeTool := EDIT_CONTROLS, mousePos := ⟨0, 0⟩ }

/-- Claim C5, witness: the no-hit branch at a concrete state is a
no-op. -/
theorem claim_C5_witness : handleMouseDown exC5b = (exC5b, none) :=
  (claim_C5 exC5b { id := "g", controls := [⟨⟨100, 100⟩, ⟨200, 200⟩⟩] }
    rfl (by with_unfolding_all rfl)).1 (by with_unfolding_all decide)

/-! ## Claim C7: validity of the active-group reference -/

/-- The active-group reference is none or designates a group present in
the collection. -/
def activeOk (s : EditorState) : Prop :=
  s.activeId = none ∨ ∃ g ∈ s.curveGroups, some g.id = s.activeId

instance (s : EditorState) : Decidable (activeOk s) := by
  unfold activeOk
  infer_instance

/-- Claim C7 (amended): group creation, activation by id and group
deletion preserve the validity of the active-group reference; deleting
the active group clears it and deleting a non-active group leaves it
unchanged.  (State load does not preserve it — see the
counterexample.) -/
theorem claim_C7 (s : EditorState) (id : String) (h : activeOk s) :
    activeOk (createGroup s id) ∧
    activeOk (setActiveGroupId s id) ∧
    activeOk (deleteGroup s id) ∧
    (s.activeId = some id → (deleteGroup s id).activeId = none) ∧
    (s.activeId ≠ some id → (deleteGroup s id).activeId = s.activeId) := by
  refine ⟨?_, ?_, ?_, ?_, ?_⟩
  · right
    exact ⟨{ id := id }, by simp [createGroup], rfl⟩
  · cases hF : s.curveGroups.find? (fun g => g.id == id) with
    | none =>
      simpa [setActiveGroupId, hF] using h
    | some g =>
      right
      refine ⟨g, ?_, ?_⟩
      · simp only [setActiveGroupId, hF]
        exact List.mem_of_find?_eq_some hF
      · have := List.find?_some hF
        simp only [setActiveGroupId, hF]
        simpa using this
  · by_cases hA : s.activeId = some id
    · left
      simp [deleteGroup, hA]
    · rcases h with h | ⟨g, hmem, hgid⟩
      · left
        simp [deleteGroup, hA, h]
      · right
        refine ⟨g, ?_, by simp [deleteGroup, hA, hgid]⟩
        have hcg : (deleteGroup s id).curveGroups =
            s.curveGroups.filter fun g => ¬ g.id == id := by
          simp [deleteGroup, hA]
        rw [hcg, List.mem_filter]
        refine ⟨hmem, ?_⟩
        simp only [decide_eq_true_eq]
        intro hbeq
        apply hA
        rw [← hgid]
        have hgid2 : g.id = id := by simpa using hbeq
        rw [hgid2]
  · intro hA
    simp [deleteGroup, hA]
  · intro hA
    simp [deleteGroup, hA]

/-- Claim C7, counterexample to the original wording: loading a snapshot
that replaces the groups with an empty collection but carries no
`activeGroupId` field leaves the active reference dangling. -/
theorem claim_C7_cex :
    activeOk (createGroup ({} : EditorState) "a") ∧
    ¬ activeOk (loadState (createGroup ({} : EditorState) "a")
        { curveGroups := some [] }) ∧
    (loadState (createGroup ({} : EditorState) "a")
        { curveGroups := some [] }).activeId = some "a" ∧
    (loadState (createGroup ({} : EditorState) "a")
        { curveGroups := some [] }).curveGroups = [] := by
  refine ⟨?_, ?_, ?_, ?_⟩ <;> with_unfolding_all decide

/-- One group, active. -/
def exC7 : EditorState := createGroup {} "a"

/-- Claim C7, witness: deleting the active group of a concrete state
clears the reference. -/
theorem claim_C7_witness :
    activeOk exC7 ∧ (deleteGroup exC7 "a").activeId = none :=
  ⟨by with_unfolding_all decide,
   (claim_C7 exC7 "a" (by with_unfolding_all decide)).2.2.2.1 rfl⟩

/-! ## Claim C8: the SVG exporter emits the specified path data -/

theorem range_map_zip {α β γ : Type} [Inhabited α] [Inhabited β] (f : β → α → γ) :
    ∀ (l : List α) (m : List β), m.length = l.length →
    (List.range l.length).map (fun i => f (m.getD i default) (l.getD i default)) =
      (l.zip m).map fun pc => f pc.2 pc.1 := by
  intro l
  induction l with
  | nil =>
    intro m _
    simp
  | cons a l ih =>
    intro m h
    cases m with
    | nil => simp at h
    | cons b m =>
      have h' : m.length = l.length := by simpa using h
      simp only [List.length_cons, List.range_succ_eq_map, List.map_cons,
        List.map_map, List.zip_cons_cons]
      congr 1
      rw [← ih m h']
      rfl

theorem svgPathData_eq_spec (points : List Pt) (controls : List Control)
    (precision : Nat) (hlen : controls.length = points.length - 1)
    (hne : points ≠ []) :
    svgPathData points controls precision =
      svgPathDataSpec points controls precision := by
  cases points with
  | nil => exact absurd rfl hne
  | cons p0 rest =>
    have hlen' : controls.length = rest.length := by simpa using hlen
    simp only [svgPathData, svgPathDataSpec]
    congr 1
    have hdrop : (List.range (p0 :: rest).length).drop 1 =
        (List.range rest.length).map (· + 1) := by
      simp [List.range_succ_eq_map]
    rw [hdrop, List.map_map]
    rw [← range_map_zip
      (fun c p => "C" ++ getSVGCoords c.p1 precision ++ ", " ++
        getSVGCoords c.p2 precision ++ ", " ++ getSVGCoords p precision)
      rest controls hlen']
    rfl

/-- Claim C8: for every precision and collection of groups,
`getSVGString` emits one path element per group with more than one point
(groups with at most one point are skipped), whose datum is an absolute
move to the first point followed by one cubic command per subsequent
point through that segment's control endpoints, every coordinate pair
in (y, x) order at the configured precision — i.e. it equals the
spec-side description `getSVGStringSpec`. -/
theorem claim_C8 (s : EditorState)
    (hwf : ∀ g ∈ s.curveGroups, g.controls.length = g.points.length - 1) :
    getSVGString s = getSVGStringSpec s := by
  have hmid :
      (s.curveGroups.filter fun g => 1 < g.points.length).map
        (fun g => "\t<path d=\"" ++
          String.intercalate " " (svgPathData g.points g.controls s.outputPrecision) ++
          "\" />") =
      (s.curveGroups.filter fun g => 1 < g.points.length).map
        (fun g => "\t<path d=\"" ++
          String.intercalate " " (svgPathDataSpec g.points g.controls s.outputPrecision) ++
          "\" />") := by
    apply List.map_congr_left
    intro g hg
    have hmem := List.mem_filter.mp hg
    have hlen : 1 < g.points.length := by simpa using hmem.2
    have hne : g.points ≠ [] := by
      intro hp
      rw [hp] at hlen
      simp at hlen
    rw [svgPathData_eq_spec g.points g.controls s.outputPrecision (hwf g hmem.1) hne]
  unfold getSVGString getSVGStringSpec
  rw [hmid]

/-- The spec's SVG example group: points [(0,0),(10,10)] with control
(2,2)-(8,8). -/
def exC8 : EditorState :=
  { curveGroups :=
      [{ id := "g", points := [⟨0, 0⟩, ⟨10, 10⟩],
         controls := [⟨⟨2, 2⟩, ⟨8, 8⟩⟩] }] }

/-- Claim C8, witness: the exporter agrees with the spec description on
the concrete example group. -/
theorem claim_C8_witness :
    (∀ g ∈ exC8.curveGroups, g.controls.length = g.points.length - 1) ∧
    getSVGString exC8 = getSVGStringSpec exC8 :=
  ⟨by decide, claim_C8 exC8 (by decide)⟩

end CurveCreator
